import Mathlib

/-!
Shallow embedding of the competitive-tracker core (snapshot data model,
change detector, snapshot storage, scan coordinator) of this repository,
together with theorems settling the frozen specification claims.

Sources embedded:
- tracker/models/snapshot.py  (CompanySnapshot)
- tracker/models/change.py    (Change)
- tracker/change_detector.py  (ChangeDetector)
- tracker/storage.py          (SnapshotStorage, over an explicit file-system state)
- tracker/agent.py            (CompetitiveAgent.run_scan, with the per-company
  scraping pipeline abstracted as a fallible function argument)

Python dictionaries are embedded as association lists (first binding wins,
as produced by the scrapers); Python `set` iteration is embedded as
first-occurrence deduplication of the underlying list, one deterministic
choice among the orders Python's hash-based sets may produce (the spec
guarantees no within-category ordering).  `datetime.now()` is passed in as
an explicit timestamp argument.
-/

/-- One monitored company's state at one instant (tracker/models/snapshot.py).
`timestamp` is the capture time set at construction (`__post_init__`). -/
structure CompanySnapshot where
  company_id : String
  timestamp : String
  services : List String
  pricing : List (String × String)
  locations : List String
  promotions : List String
  business_info : List (String × String)
  raw_pages : List (String × String)
  metadata : List (String × String)
deriving DecidableEq, Repr

/-- One detected delta between two snapshots (tracker/models/change.py). -/
structure Change where
  company_id : String
  change_type : String
  category : String
  description : String
  old_value : Option String
  new_value : Option String
  timestamp : String
  severity : String
deriving DecidableEq, Repr

/-- Failure raised by `ChangeDetector.detect_changes` when snapshot entity ids
differ: `raise ValueError("Snapshots devem ser da mesma empresa")` — the
concrete realisation of the spec's `MismatchedEntityError`. -/
inductive DetectError where
  | mismatchedEntity : DetectError
deriving DecidableEq, Repr

/-- `dict.get(key)`: first binding wins, `none` when absent. -/
def alookup (k : String) : List (String × String) → Option String
  | [] => none
  | (k', v) :: rest => if k' = k then some v else alookup k rest

/-- `dict.get(key, "")`. -/
def alookupD (l : List (String × String)) (k : String) : String :=
  (alookup k l).getD ""

/-- Iteration over the Python set difference `set a - set b`
(first-occurrence order). -/
def setDiffList (a b : List String) : List String :=
  a.dedup.filter (fun x => ¬ x ∈ b)

/-- Iteration over `set(list(d1.keys()) + list(d2.keys()))`. -/
def unionKeys (d1 d2 : List (String × String)) : List String :=
  (d1.map Prod.fst ++ d2.map Prod.fst).dedup

/-- `ChangeDetector._detect_service_changes`. -/
def detect_service_changes (old new : CompanySnapshot) (timestamp : String) :
    List Change :=
  (setDiffList new.services old.services).map (fun service =>
    { company_id := new.company_id
      change_type := "service_added"
      category := "services"
      description := "Novo serviço detetado: " ++ service
      old_value := none
      new_value := some service
      timestamp := timestamp
      severity := "high" })
  ++ (setDiffList old.services new.services).map (fun service =>
    { company_id := new.company_id
      change_type := "service_removed"
      category := "services"
      description := "Serviço removido: " ++ service
      old_value := some service
      new_value := none
      timestamp := timestamp
      severity := "high" })

/-- The body of the `for key in all_keys` loop of
`ChangeDetector._detect_pricing_changes`: what is appended for one key. -/
def pricingEmit (old new : CompanySnapshot) (timestamp key : String) :
    List Change :=
  match alookup key old.pricing, alookup key new.pricing with
  | none, some new_price =>
    [{ company_id := new.company_id
       change_type := "price_changed"
       category := "pricing"
       description := "Novo preço registado para: " ++ key
       old_value := none
       new_value := some new_price
       timestamp := timestamp
       severity := "medium" }]
  | some old_price, none =>
    [{ company_id := new.company_id
       change_type := "price_changed"
       category := "pricing"
       description := "Preço removido para: " ++ key
       old_value := some old_price
       new_value := none
       timestamp := timestamp
       severity := "medium" }]
  | some old_price, some new_price =>
    if old_price ≠ new_price then
      [{ company_id := new.company_id
         change_type := "price_changed"
         category := "pricing"
         description :=
           "Preço alterado para " ++ key ++ ": " ++ old_price ++ " -> " ++ new_price
         old_value := some old_price
         new_value := some new_price
         timestamp := timestamp
         severity := "high" }]
    else []
  | none, none => []

/-- `ChangeDetector._detect_pricing_changes`: the imperative
`changes = []; for key in all_keys: ... changes.append(...)` loop. -/
def detect_pricing_changes (old new : CompanySnapshot) (timestamp : String) :
    List Change :=
  (unionKeys old.pricing new.pricing).foldl
    (fun changes key => changes ++ pricingEmit old new timestamp key) []

/-- `ChangeDetector._detect_location_changes`. -/
def detect_location_changes (old new : CompanySnapshot) (timestamp : String) :
    List Change :=
  (setDiffList new.locations old.locations).map (fun location =>
    { company_id := new.company_id
      change_type := "location_added"
      category := "locations"
      description := "Nova localização: " ++ location
      old_value := none
      new_value := some location
      timestamp := timestamp
      severity := "high" })
  ++ (setDiffList old.locations new.locations).map (fun location =>
    { company_id := new.company_id
      change_type := "location_removed"
      category := "locations"
      description := "Localização removida: " ++ location
      old_value := some location
      new_value := none
      timestamp := timestamp
      severity := "medium" })

/-- `ChangeDetector._detect_promotion_changes`. -/
def detect_promotion_changes (old new : CompanySnapshot) (timestamp : String) :
    List Change :=
  (setDiffList new.promotions old.promotions).map (fun promo =>
    { company_id := new.company_id
      change_type := "promotion_new"
      category := "promotions"
      description := "Nova promoção: " ++ promo
      old_value := none
      new_value := some promo
      timestamp := timestamp
      severity := "medium" })
  ++ (setDiffList old.promotions new.promotions).map (fun promo =>
    { company_id := new.company_id
      change_type := "promotion_expired"
      category := "promotions"
      description := "Promoção expirada/removida: " ++ promo
      old_value := some promo
      new_value := none
      timestamp := timestamp
      severity := "info" })

/-- `ChangeDetector._detect_business_changes`: Python string truthiness
(`if old_hash and new_hash and old_hash != new_hash`) is non-emptiness. -/
def detect_business_changes (old new : CompanySnapshot) (timestamp : String) :
    List Change :=
  let old_hash := alookupD old.business_info "about_text_hash"
  let new_hash := alookupD new.business_info "about_text_hash"
  if old_hash ≠ "" ∧ new_hash ≠ "" ∧ old_hash ≠ new_hash then
    [{ company_id := new.company_id
       change_type := "business_model_change"
       category := "business_model"
       description :=
         "Conteúdo da página 'Sobre' alterado - possível mudança no modelo de negócio"
       old_value := some (alookupD old.business_info "about_text_preview")
       new_value := some (alookupD new.business_info "about_text_preview")
       timestamp := timestamp
       severity := "medium" }]
  else []

/-- The body of the `for page in all_pages` loop of
`ChangeDetector._detect_page_changes`. -/
def pageEmit (old new : CompanySnapshot) (timestamp page : String) :
    List Change :=
  let old_hash := alookupD old.raw_pages page
  let new_hash := alookupD new.raw_pages page
  if old_hash ≠ "" ∧ new_hash ≠ "" ∧ old_hash ≠ new_hash then
    [{ company_id := new.company_id
       change_type := "website_content_change"
       category := "business_model"
       description := "Conteúdo da página '" ++ page ++ "' alterado"
       old_value := some ("hash: " ++ old_hash.take 16 ++ "...")
       new_value := some ("hash: " ++ new_hash.take 16 ++ "...")
       timestamp := timestamp
       severity := "info" }]
  else []

/-- `ChangeDetector._detect_page_changes`. -/
def detect_page_changes (old new : CompanySnapshot) (timestamp : String) :
    List Change :=
  (unionKeys old.raw_pages new.raw_pages).foldl
    (fun changes page => changes ++ pageEmit old new timestamp page) []

/-- `ChangeDetector.detect_changes`: raises when the entity ids differ,
otherwise concatenates the six category blocks in the code's fixed order.
`timestamp` stands for the `datetime.now().isoformat()` taken at entry. -/
def detect_changes (old new : CompanySnapshot) (timestamp : String) :
    Except DetectError (List Change) :=
  if old.company_id ≠ new.company_id then
    Except.error DetectError.mismatchedEntity
  else
    Except.ok
      (detect_service_changes old new timestamp
        ++ detect_pricing_changes old new timestamp
        ++ detect_location_changes old new timestamp
        ++ detect_promotion_changes old new timestamp
        ++ detect_business_changes old new timestamp
        ++ detect_page_changes old new timestamp)

/-- C1: For every pair of Snapshots `(old, new)` with differing entity ids,
`detect_changes` fails with the mismatched-entity error (the code's
`ValueError`, the spec's `MismatchedEntityError`) and emits no changes
(the result carries no change list). -/
theorem C1_mismatched_entity_fails (old new : CompanySnapshot) (ts : String)
    (h : old.company_id ≠ new.company_id) :
    detect_changes old new ts = Except.error DetectError.mismatchedEntity := by
  simp [detect_changes, h]

theorem C1_mismatched_entity_fails_witness :
    ({ company_id := "fixo", timestamp := "t", services := [], pricing := [],
       locations := [], promotions := [], business_info := [], raw_pages := [],
       metadata := [] } : CompanySnapshot).company_id ≠
      ({ company_id := "webel", timestamp := "t", services := [], pricing := [],
         locations := [], promotions := [], business_info := [], raw_pages := [],
         metadata := [] } : CompanySnapshot).company_id ∧
    detect_changes
      { company_id := "fixo", timestamp := "t", services := [], pricing := [],
        locations := [], promotions := [], business_info := [], raw_pages := [],
        metadata := [] }
      { company_id := "webel", timestamp := "t", services := [], pricing := [],
        locations := [], promotions := [], business_info := [], raw_pages := [],
        metadata := [] } "now" = Except.error DetectError.mismatchedEntity :=
  ⟨by decide, C1_mismatched_entity_fails _ _ "now" (by decide)⟩

theorem setDiffList_self (l : List String) : setDiffList l l = [] := by
  simp only [setDiffList, List.filter_eq_nil_iff]
  intro x hx
  simp [List.mem_dedup.mp hx]

theorem pricingEmit_self (s : CompanySnapshot) (ts k : String) :
    pricingEmit s s ts k = [] := by
  unfold pricingEmit
  cases alookup k s.pricing with
  | none => rfl
  | some v => simp

theorem pageEmit_self (s : CompanySnapshot) (ts p : String) :
    pageEmit s s ts p = [] := by
  simp [pageEmit]

theorem foldl_append_emit_nil {α : Type} (emit : α → List Change)
    (hemit : ∀ k, emit k = []) (keys : List α) :
    ∀ acc, keys.foldl (fun changes k => changes ++ emit k) acc = acc := by
  induction keys with
  | nil => intro acc; rfl
  | cons k rest ih =>
    intro acc
    rw [List.foldl_cons, hemit, List.append_nil]
    exact ih acc

/-- C3: For every Snapshot `s`, diffing `s` against itself succeeds and
returns the empty Change list — no category emits anything when old and new
are identical. -/
theorem C3_diff_self_empty (s : CompanySnapshot) (ts : String) :
    detect_changes s s ts = Except.ok [] := by
  unfold detect_changes
  simp only [ne_eq, not_true_eq_false, if_false, ite_not]
  unfold detect_service_changes detect_pricing_changes detect_location_changes
    detect_promotion_changes detect_business_changes detect_page_changes
  rw [foldl_append_emit_nil _ (pricingEmit_self s ts),
      foldl_append_emit_nil _ (pageEmit_self s ts)]
  simp [setDiffList_self]

/-! ### String ordering (Python `sorted` on filenames)

Python compares strings by Unicode code point, lexicographically; this is
lexicographic comparison of the character lists. -/

def lexLtB : List Char → List Char → Bool
  | [], [] => false
  | [], _ :: _ => true
  | _ :: _, [] => false
  | a :: as, b :: bs =>
    if a < b then true else if b < a then false else lexLtB as bs

/-- Python `a < b` on strings. -/
def strLtB (a b : String) : Bool := lexLtB a.data b.data

/-- Python `a <= b` on strings. -/
def strLeB (a b : String) : Bool := !(strLtB b a)

theorem lexLtB_irrefl (l : List Char) : lexLtB l l = false := by
  induction l with
  | nil => rfl
  | cons a as ih => simp [lexLtB, ih]

theorem lexLtB_trans {a b c : List Char} (h1 : lexLtB a b = true)
    (h2 : lexLtB b c = true) : lexLtB a c = true := by
  induction a generalizing b c with
  | nil =>
    cases b with
    | nil => exact absurd h1 (by simp [lexLtB])
    | cons y ys =>
      cases c with
      | nil => exact absurd h2 (by simp [lexLtB])
      | cons z zs => rfl
  | cons x xs ih =>
    cases b with
    | nil => exact absurd h1 (by simp [lexLtB])
    | cons y ys =>
      cases c with
      | nil => exact absurd h2 (by simp [lexLtB])
      | cons z zs =>
        simp only [lexLtB] at h1 h2 ⊢
        by_cases hxy : x < y
        · by_cases hyz : y < z
          · rw [if_pos (lt_trans hxy hyz)]
          · rw [if_neg hyz] at h2
            by_cases hzy : z < y
            · simp [hzy] at h2
            · have : y = z := le_antisymm (not_lt.mp hzy) (not_lt.mp hyz)
              rw [if_pos (this ▸ hxy)]
        · rw [if_neg hxy] at h1
          by_cases hyx : y < x
          · simp [hyx] at h1
          · have hxy' : x = y := le_antisymm (not_lt.mp hyx) (not_lt.mp hxy)
            subst hxy'
            by_cases hxz : x < z
            · rw [if_pos hxz]
            · rw [if_neg hxz] at h2 ⊢
              by_cases hzx : z < x
              · simp [hzx] at h2
              · rw [if_neg hzx] at h2 ⊢
                simp only [if_neg hxy] at h1
                exact ih h1 h2

theorem lexLtB_total {a b : List Char} (h1 : lexLtB a b = false)
    (h2 : lexLtB b a = false) : a = b := by
  induction a generalizing b with
  | nil =>
    cases b with
    | nil => rfl
    | cons y ys => exact absurd h1 (by simp [lexLtB])
  | cons x xs ih =>
    cases b with
    | nil => exact absurd h2 (by simp [lexLtB])
    | cons y ys =>
      simp only [lexLtB] at h1 h2
      by_cases hxy : x < y
      · simp [hxy] at h1
      · by_cases hyx : y < x
        · simp [hyx, if_neg (asymm hyx)] at h2
        · have hxy' : x = y := le_antisymm (not_lt.mp hyx) (not_lt.mp hxy)
          subst hxy'
          simp only [if_neg hxy, lt_irrefl, if_neg (lt_irrefl x).elim] at h1 h2
          rw [ih h1 h2]

theorem strLeB_refl (a : String) : strLeB a a = true := by
  simp [strLeB, strLtB, lexLtB_irrefl]

theorem strLeB_antisymm {a b : String} (h1 : strLeB a b = true)
    (h2 : strLeB b a = true) : a = b := by
  simp only [strLeB, strLtB, Bool.not_eq_true', Bool.not_eq_true] at h1 h2
  exact String.ext (lexLtB_total h2 h1)

theorem strLeB_trans {a b c : String} (h1 : strLeB a b = true)
    (h2 : strLeB b c = true) : strLeB a c = true := by
  simp only [strLeB, strLtB, Bool.not_eq_true'] at h1 h2 ⊢
  by_cases h : lexLtB c.data a.data = true
  · by_cases hab : lexLtB a.data b.data = true
    · have hcb := lexLtB_trans h hab
      rw [h2] at hcb
      exact absurd hcb (by simp)
    · have hab' : lexLtB a.data b.data = false := by simpa using hab
      have heq : a.data = b.data := lexLtB_total hab' h1
      rw [heq, h2] at h
      exact absurd h (by simp)
  · simpa using h

theorem strLeB_of_strLtB {a b : String} (h : strLtB a b = true) :
    strLeB a b = true := by
  simp only [strLeB, strLtB, Bool.not_eq_true']
  by_cases hba : lexLtB b.data a.data = true
  · have := lexLtB_trans h hba
    rw [lexLtB_irrefl] at this
    exact absurd this (by simp)
  · exact Bool.not_eq_true _ ▸ hba

theorem strLeB_false_of_strLtB {a b : String} (h : strLtB a b = true) :
    strLeB b a = false := by
  simp [strLeB, h]

theorem strLtB_irrefl (a : String) : strLtB a a = false := lexLtB_irrefl a.data

/-- Descending insertion used by the model of Python's stable
`sorted(files, reverse=True)`. -/
def insertDesc (x : String) : List String → List String
  | [] => [x]
  | y :: ys => if strLeB y x then x :: y :: ys else y :: insertDesc x ys

/-- Python `sorted(files, reverse=True)` on the glob result. -/
def sortDesc : List String → List String
  | [] => []
  | x :: xs => insertDesc x (sortDesc xs)

theorem insertDesc_perm (x : String) (l : List String) :
    List.Perm (insertDesc x l) (x :: l) := by
  induction l with
  | nil => exact List.Perm.refl _
  | cons y ys ih =>
    by_cases h : strLeB y x = true
    · simp [insertDesc, h]
    · simp only [insertDesc, h, if_false, Bool.false_eq_true]
      exact (ih.cons y).trans (List.Perm.swap x y ys)

theorem sortDesc_perm (l : List String) : List.Perm (sortDesc l) l := by
  induction l with
  | nil => exact List.Perm.refl _
  | cons x xs ih => exact (insertDesc_perm x (sortDesc xs)).trans (ih.cons x)

theorem mem_insertDesc {a x : String} {l : List String} :
    a ∈ insertDesc x l ↔ a = x ∨ a ∈ l :=
  by simpa using (insertDesc_perm x l).mem_iff

theorem mem_sortDesc {a : String} {l : List String} :
    a ∈ sortDesc l ↔ a ∈ l := (sortDesc_perm l).mem_iff

theorem pairwise_insertDesc {x : String} {l : List String}
    (h : l.Pairwise (fun a b => strLeB b a = true)) :
    (insertDesc x l).Pairwise (fun a b => strLeB b a = true) := by
  induction l with
  | nil => simp [insertDesc]
  | cons y ys ih =>
    rcases List.pairwise_cons.mp h with ⟨hy, hys⟩
    by_cases hle : strLeB y x = true
    · simp only [insertDesc, hle, if_true]
      refine List.pairwise_cons.mpr ⟨?_, h⟩
      intro z hz
      rcases List.mem_cons.mp hz with rfl | hz'
      · exact hle
      · exact strLeB_trans (hy z hz') hle
    · have hxy : strLtB x y = true := by
        simp only [strLeB, Bool.not_eq_true'] at hle
        simpa using hle
      simp only [insertDesc, hle, if_false, Bool.false_eq_true]
      refine List.pairwise_cons.mpr ⟨?_, ih hys⟩
      intro z hz
      rcases mem_insertDesc.mp hz with rfl | hz'
      · exact strLeB_of_strLtB hxy
      · exact hy z hz'

theorem pairwise_sortDesc (l : List String) :
    (sortDesc l).Pairwise (fun a b => strLeB b a = true) := by
  induction l with
  | nil => simp [sortDesc]
  | cons x xs ih => exact pairwise_insertDesc ih

theorem insertDesc_of_forall_gt {x : String} {l : List String}
    (h : ∀ y ∈ l, strLeB y x = false) : insertDesc x l = l ++ [x] := by
  induction l with
  | nil => rfl
  | cons y ys ih =>
    have hy := h y (List.mem_cons_self y ys)
    simp only [insertDesc, hy, Bool.false_eq_true, if_false, List.cons_append]
    rw [ih (fun z hz => h z (List.mem_cons_of_mem y hz))]

/-- Sorting a strictly ascending list in descending order reverses it. -/
theorem sortDesc_of_strict_asc {l : List String}
    (h : l.Pairwise (fun a b => strLtB a b = true)) :
    sortDesc l = l.reverse := by
  induction l with
  | nil => rfl
  | cons x xs ih =>
    rcases List.pairwise_cons.mp h with ⟨hx, hxs⟩
    simp only [sortDesc, List.reverse_cons]
    rw [ih hxs, insertDesc_of_forall_gt]
    intro y hy
    exact strLeB_false_of_strLtB (hx y (by simpa using hy))

/-! ### Snapshot storage (tracker/storage.py)

The storage state is the part of the file system under `base_dir`: which
company subdirectories exist and which snapshot files exist (in creation
order; ordering of directory listings is irrelevant because the code sorts
every glob result).  The save-time key `datetime.now().strftime("%Y%m%d_%H%M%S")`
is passed in explicitly. -/

/-- A file under the storage base directory: `dir` is the company
subdirectory, `name` the file name, `content` the stored snapshot. -/
structure FSFile where
  dir : String
  name : String
  content : CompanySnapshot
deriving DecidableEq, Repr

/-- Storage file-system state. -/
structure FS where
  dirs : List String
  files : List FSFile
deriving DecidableEq, Repr

/-- The state right after `SnapshotStorage.__init__` on a fresh medium. -/
def initFS : FS := { dirs := [], files := [] }

/-- `SnapshotStorage._company_dir`: `mkdir(parents=True, exist_ok=True)` —
creates the company's directory when missing. -/
def company_dir (fs : FS) (company_id : String) : FS :=
  if company_id ∈ fs.dirs then fs
  else { fs with dirs := fs.dirs ++ [company_id] }

/-- `open(filepath, "w")` + write (`CompanySnapshot.save`): replaces the
file's content when the path already exists, otherwise creates the file. -/
def fsWrite : List FSFile → String → String → CompanySnapshot → List FSFile
  | [], dir, name, c => [{ dir := dir, name := name, content := c }]
  | f :: fsf, dir, name, c =>
    if f.dir = dir ∧ f.name = name then { dir := dir, name := name, content := c } :: fsf
    else f :: fsWrite fsf dir name c

/-- Whether `name` matches the glob pattern f"{company_id}_*.json". -/
def globMatch (company_id name : String) : Bool :=
  (company_id ++ "_").data.isPrefixOf name.data
    && ".json".data.isSuffixOf name.data

/-- The (unsorted) result of `company_dir.glob(f"{company_id}_*.json")`. -/
def matchingNames (fs : FS) (company_id : String) : List String :=
  (fs.files.filter (fun f => f.dir == company_id && globMatch company_id f.name)).map
    FSFile.name

/-- `CompanySnapshot.load` of the file `name` in `company_id`'s directory. -/
def readFile (fs : FS) (company_id name : String) : Option CompanySnapshot :=
  (fs.files.find? (fun f => f.dir == company_id && f.name == name)).map
    FSFile.content

/-- The filename f"{snapshot.company_id}_{timestamp}.json". -/
def mkName (company_id ts : String) : String :=
  company_id ++ "_" ++ ts ++ ".json"

/-- `SnapshotStorage._cleanup_old_snapshots`: sorts newest-first and
unlinks every file beyond `max_per_company`. -/
def cleanup_old_snapshots (max_per_company : Nat) (fs : FS) (company_id : String) :
    FS :=
  let fs1 := company_dir fs company_id
  let names := sortDesc (matchingNames fs1 company_id)
  if names.length > max_per_company then
    { fs1 with files := fs1.files.filter (fun f =>
        !(f.dir == company_id && (names.drop max_per_company).contains f.name)) }
  else fs1

/-- `SnapshotStorage.save_snapshot` with save-time key `ts`: returns the
file path and the new state. -/
def save_snapshot (max_per_company : Nat) (fs : FS) (snapshot : CompanySnapshot)
    (ts : String) : String × FS :=
  let fs1 := company_dir fs snapshot.company_id
  let name := mkName snapshot.company_id ts
  let fs2 := { fs1 with files := fsWrite fs1.files snapshot.company_id name snapshot }
  let fs3 := cleanup_old_snapshots max_per_company fs2 snapshot.company_id
  (snapshot.company_id ++ "/" ++ name, fs3)

/-- `SnapshotStorage.get_latest_snapshot`.  Note the `_company_dir` call:
the read also creates the company directory when missing, which is why the
returned state can differ from the input state. -/
def get_latest_snapshot (fs : FS) (company_id : String) :
    Option CompanySnapshot × FS :=
  let fs1 := company_dir fs company_id
  match sortDesc (matchingNames fs1 company_id) with
  | [] => (none, fs1)
  | n :: _ => (readFile fs1 company_id n, fs1)

/-- `SnapshotStorage.get_all_snapshots` (newest first). -/
def get_all_snapshots (fs : FS) (company_id : String) :
    List CompanySnapshot × FS :=
  let fs1 := company_dir fs company_id
  ((sortDesc (matchingNames fs1 company_id)).filterMap (readFile fs1 company_id), fs1)

theorem company_dir_files (fs : FS) (cid : String) :
    (company_dir fs cid).files = fs.files := by
  unfold company_dir
  split <;> rfl

theorem company_dir_of_mem {fs : FS} {cid : String} (h : cid ∈ fs.dirs) :
    company_dir fs cid = fs := by
  simp [company_dir, h]

theorem get_latest_snapshot_state (fs : FS) (cid : String) :
    (get_latest_snapshot fs cid).2 = company_dir fs cid := by
  unfold get_latest_snapshot
  rcases h : sortDesc (matchingNames (company_dir fs cid) cid) with _ | ⟨n, t⟩ <;>
    simp [h]

/-- C4 counterexample: on a fresh storage, the `latest` lookup for a company
that was never scanned is not side-effect free — it creates the company's
directory (`_company_dir` runs `mkdir(parents=True, exist_ok=True)`), so the
storage state after the read differs from the state before it. -/
theorem C4_counterexample :
    (get_latest_snapshot initFS "fixo").2 ≠ initFS := by decide

/-- C4 amended: `get_latest_snapshot` never creates, modifies or deletes any
file; its only side effect is creating the company's directory when missing —
whenever that directory already exists, the read leaves the storage state
entirely unchanged. -/
theorem C4_latest_read_effect (fs : FS) (cid : String) :
    (get_latest_snapshot fs cid).2.files = fs.files ∧
      (cid ∈ fs.dirs → (get_latest_snapshot fs cid).2 = fs) := by
  constructor
  · rw [get_latest_snapshot_state]
    exact company_dir_files fs cid
  · intro h
    rw [get_latest_snapshot_state]
    exact company_dir_of_mem h

theorem C4_latest_read_effect_witness :
    (get_latest_snapshot { dirs := ["fixo"], files := [] } "fixo").2 =
      { dirs := ["fixo"], files := [] } :=
  (C4_latest_read_effect { dirs := ["fixo"], files := [] } "fixo").2 (by decide)

theorem matchingNames_company_dir (fs : FS) (cid cid' : String) :
    matchingNames (company_dir fs cid) cid' = matchingNames fs cid' := by
  unfold matchingNames
  rw [company_dir_files]

theorem globMatch_mkName (cid ts : String) :
    globMatch cid (mkName cid ts) = true := by
  unfold globMatch mkName
  apply Bool.and_eq_true_iff.mpr
  constructor
  · apply (List.isPrefixOf_iff_prefix).mpr
    simp only [String.data_append]
    rw [List.append_assoc]
    exact List.prefix_append _ _
  · apply (List.isSuffixOf_iff_suffix).mpr
    simp only [String.data_append]
    exact List.suffix_append _ _

theorem cleanup_of_le {maxN : Nat} {fs : FS} {cid : String}
    (h : (matchingNames fs cid).length ≤ maxN) :
    cleanup_old_snapshots maxN fs cid = company_dir fs cid := by
  have hlen : ¬ (sortDesc (matchingNames fs cid)).length > maxN := by
    rw [(sortDesc_perm (matchingNames fs cid)).length_eq]
    omega
  simp only [cleanup_old_snapshots, matchingNames_company_dir, hlen, if_false]

theorem save_snapshot_initFS (maxN : Nat) (s : CompanySnapshot) (ts : String)
    (hmax : 1 ≤ maxN) :
    (save_snapshot maxN initFS s ts).2 =
      { dirs := [s.company_id],
        files := [{ dir := s.company_id, name := mkName s.company_id ts,
                    content := s }] } := by
  have h1 : company_dir initFS s.company_id =
      { dirs := [s.company_id], files := [] } := by
    simp [company_dir, initFS]
  have h2 : matchingNames
      ({ dirs := [s.company_id],
         files := [{ dir := s.company_id, name := mkName s.company_id ts,
                     content := s }] } : FS) s.company_id =
      [mkName s.company_id ts] := by
    simp [matchingNames, globMatch_mkName]
  simp only [save_snapshot, h1, fsWrite]
  rw [cleanup_of_le (by rw [h2]; simpa using hmax)]
  exact company_dir_of_mem (by simp)

/-- C2 counterexample: two saves for the same entity whose save-time keys
collide at the second-resolution clock ("%Y%m%d_%H%M%S") produce the same
filename, and the second `open(filepath, "w")` silently overwrites the
first: only the later snapshot remains stored, refuting "both remain
stored ... neither is silently dropped". -/
theorem C2_counterexample :
    (save_snapshot 90
        (save_snapshot 90 initFS
            { company_id := "fixo", timestamp := "2026-01-01T10:00:00",
              services := ["canalização"], pricing := [], locations := [],
              promotions := [], business_info := [], raw_pages := [],
              metadata := [] } "20260101_100000").2
        { company_id := "fixo", timestamp := "2026-01-01T10:00:00.5",
          services := ["eletricidade"], pricing := [], locations := [],
          promotions := [], business_info := [], raw_pages := [],
          metadata := [] } "20260101_100000").2.files =
      [{ dir := "fixo", name := "fixo_20260101_100000.json",
         content := { company_id := "fixo", timestamp := "2026-01-01T10:00:00.5",
                      services := ["eletricidade"], pricing := [], locations := [],
                      promotions := [], business_info := [], raw_pages := [],
                      metadata := [] } }] ∧
    ({ company_id := "fixo", timestamp := "2026-01-01T10:00:00",
       services := ["canalização"], pricing := [], locations := [],
       promotions := [], business_info := [], raw_pages := [],
       metadata := [] } : CompanySnapshot) ≠
      { company_id := "fixo", timestamp := "2026-01-01T10:00:00.5",
        services := ["eletricidade"], pricing := [], locations := [],
        promotions := [], business_info := [], raw_pages := [],
        metadata := [] } := by
  constructor
  · decide
  · decide

/-- C2 amended: `save_snapshot` keys entries by the save-time timestamp at
second resolution.  Saves with distinct filename keys never overwrite an
existing entry (both snapshots remain stored), but two saves for the same
entity with identical second-resolution keys collide on the same filename
and the later save silently overwrites the earlier one — only the later
snapshot remains. -/
theorem C2_save_keying (maxN : Nat) (s1 s2 : CompanySnapshot) (ts1 ts2 : String)
    (hcid : s2.company_id = s1.company_id) (hmax : 2 ≤ maxN) :
    (ts1 = ts2 →
      (save_snapshot maxN (save_snapshot maxN initFS s1 ts1).2 s2 ts2).2 =
        { dirs := [s1.company_id],
          files := [{ dir := s1.company_id, name := mkName s1.company_id ts2,
                      content := s2 }] }) ∧
    (mkName s1.company_id ts1 ≠ mkName s1.company_id ts2 →
      (save_snapshot maxN (save_snapshot maxN initFS s1 ts1).2 s2 ts2).2 =
        { dirs := [s1.company_id],
          files := [{ dir := s1.company_id, name := mkName s1.company_id ts1,
                      content := s1 },
                    { dir := s1.company_id, name := mkName s1.company_id ts2,
                      content := s2 }] }) := by
  rw [save_snapshot_initFS maxN s1 ts1 (le_trans (by omega) hmax)]
  have hdir : company_dir
      ({ dirs := [s1.company_id],
         files := [{ dir := s1.company_id, name := mkName s1.company_id ts1,
                     content := s1 }] } : FS) s1.company_id =
      { dirs := [s1.company_id],
        files := [{ dir := s1.company_id, name := mkName s1.company_id ts1,
                    content := s1 }] } :=
    company_dir_of_mem (by simp)
  constructor
  · intro hts
    subst hts
    simp only [save_snapshot, hcid, hdir]
    rw [show fsWrite
          [{ dir := s1.company_id, name := mkName s1.company_id ts1,
             content := s1 }] s1.company_id (mkName s1.company_id ts1) s2 =
        [{ dir := s1.company_id, name := mkName s1.company_id ts1,
           content := s2 }] by simp [fsWrite]]
    rw [cleanup_of_le (by simp [matchingNames, globMatch_mkName]; omega)]
    exact company_dir_of_mem (by simp)
  · intro hne
    simp only [save_snapshot, hcid, hdir]
    rw [show fsWrite
          [{ dir := s1.company_id, name := mkName s1.company_id ts1,
             content := s1 }] s1.company_id (mkName s1.company_id ts2) s2 =
        [{ dir := s1.company_id, name := mkName s1.company_id ts1,
           content := s1 },
         { dir := s1.company_id, name := mkName s1.company_id ts2,
           content := s2 }] by simp [fsWrite, hne]]
    rw [cleanup_of_le (by simp [matchingNames, globMatch_mkName]; omega)]
    exact company_dir_of_mem (by simp)

theorem C2_save_keying_witness :
    ((save_snapshot 90
        (save_snapshot 90 initFS
            { company_id := "webel", timestamp := "t1", services := [],
              pricing := [], locations := [], promotions := [],
              business_info := [], raw_pages := [], metadata := [] }
            "20260101_100000").2
        { company_id := "webel", timestamp := "t2", services := ["x"],
          pricing := [], locations := [], promotions := [],
          business_info := [], raw_pages := [], metadata := [] }
        "20260101_100000").2 =
      { dirs := ["webel"],
        files := [{ dir := "webel", name := mkName "webel" "20260101_100000",
                    content := { company_id := "webel", timestamp := "t2",
                                 services := ["x"], pricing := [],
                                 locations := [], promotions := [],
                                 business_info := [], raw_pages := [],
                                 metadata := [] } }] }) ∧
    ((save_snapshot 90
        (save_snapshot 90 initFS
            { company_id := "webel", timestamp := "t1", services := [],
              pricing := [], locations := [], promotions := [],
              business_info := [], raw_pages := [], metadata := [] }
            "20260101_100000").2
        { company_id := "webel", timestamp := "t2", services := ["x"],
          pricing := [], locations := [], promotions := [],
          business_info := [], raw_pages := [], metadata := [] }
        "20260101_100001").2 =
      { dirs := ["webel"],
        files := [{ dir := "webel", name := mkName "webel" "20260101_100000",
                    content := { company_id := "webel", timestamp := "t1",
                                 services := [], pricing := [],
                                 locations := [], promotions := [],
                                 business_info := [], raw_pages := [],
                                 metadata := [] } },
                  { dir := "webel", name := mkName "webel" "20260101_100001",
                    content := { company_id := "webel", timestamp := "t2",
                                 services := ["x"], pricing := [],
                                 locations := [], promotions := [],
                                 business_info := [], raw_pages := [],
                                 metadata := [] } }] }) :=
  ⟨(C2_save_keying 90
      { company_id := "webel", timestamp := "t1", services := [], pricing := [],
        locations := [], promotions := [], business_info := [], raw_pages := [],
        metadata := [] }
      { company_id := "webel", timestamp := "t2", services := ["x"], pricing := [],
        locations := [], promotions := [], business_info := [], raw_pages := [],
        metadata := [] }
      "20260101_100000" "20260101_100000" rfl (by omega)).1 rfl,
   (C2_save_keying 90
      { company_id := "webel", timestamp := "t1", services := [], pricing := [],
        locations := [], promotions := [], business_info := [], raw_pages := [],
        metadata := [] }
      { company_id := "webel", timestamp := "t2", services := ["x"], pricing := [],
        locations := [], promotions := [], business_info := [], raw_pages := [],
        metadata := [] }
      "20260101_100000" "20260101_100001" rfl (by omega)).2 (by decide)⟩

theorem sortDesc_head_max {l : List String} {h : String} {t : List String}
    (e : sortDesc l = h :: t) : h ∈ l ∧ ∀ y ∈ l, strLeB y h = true := by
  have hperm := sortDesc_perm l
  constructor
  · exact hperm.mem_iff.mp (by rw [e]; exact List.mem_cons_self h t)
  · intro y hy
    have hmem : y ∈ sortDesc l := hperm.mem_iff.mpr hy
    rw [e] at hmem
    rcases List.mem_cons.mp hmem with rfl | hmem'
    · exact strLeB_refl y
    · have hpw := pairwise_sortDesc l
      rw [e] at hpw
      exact (List.pairwise_cons.mp hpw).1 y hmem'

/-- Well-formedness of a storage state: no two files share a path. -/
def FS.WF (fs : FS) : Prop :=
  (fs.files.map (fun f => (f.dir, f.name))).Nodup

/-- C5 counterexample: `get_latest_snapshot` orders stored snapshots by the
save-time filename key, not by the snapshot's own capture timestamp.  Saving
a snapshot with a LATER capture timestamp first and one with an EARLIER
capture timestamp second (larger save key), `latest` returns the second —
whose capture timestamp is strictly smaller than that of another stored
snapshot — refuting "returns the Snapshot with the greatest capture
timestamp among all currently stored". -/
theorem C5_counterexample :
    (get_latest_snapshot
        (save_snapshot 90
            (save_snapshot 90 initFS
                { company_id := "fixo", timestamp := "2026-01-02T00:00:00",
                  services := ["a"], pricing := [], locations := [],
                  promotions := [], business_info := [], raw_pages := [],
                  metadata := [] } "20260105_000000").2
            { company_id := "fixo", timestamp := "2026-01-01T00:00:00",
              services := ["b"], pricing := [], locations := [],
              promotions := [], business_info := [], raw_pages := [],
              metadata := [] } "20260106_000000").2 "fixo").1 =
      some { company_id := "fixo", timestamp := "2026-01-01T00:00:00",
             services := ["b"], pricing := [], locations := [],
             promotions := [], business_info := [], raw_pages := [],
             metadata := [] } ∧
    ({ company_id := "fixo", timestamp := "2026-01-02T00:00:00",
       services := ["a"], pricing := [], locations := [], promotions := [],
       business_info := [], raw_pages := [], metadata := [] } :
        CompanySnapshot) ∈
      (save_snapshot 90
          (save_snapshot 90 initFS
              { company_id := "fixo", timestamp := "2026-01-02T00:00:00",
                services := ["a"], pricing := [], locations := [],
                promotions := [], business_info := [], raw_pages := [],
                metadata := [] } "20260105_000000").2
          { company_id := "fixo", timestamp := "2026-01-01T00:00:00",
            services := ["b"], pricing := [], locations := [],
            promotions := [], business_info := [], raw_pages := [],
            metadata := [] } "20260106_000000").2.files.map FSFile.content ∧
    strLtB "2026-01-01T00:00:00" "2026-01-02T00:00:00" = true := by
  refine ⟨by decide, by decide, by decide⟩

/-- C5 amended: on a well-formed storage state, `get_latest_snapshot`
returns `none` when no stored file matches the entity's glob pattern (entity
never scanned), and otherwise returns the content of the stored file with
the lexicographically greatest filename — the greatest save-time key, which
equals the greatest capture timestamp only when snapshots are saved in
capture order. -/
theorem C5_latest_by_save_key (fs : FS) (cid : String) (hwf : FS.WF fs) :
    (matchingNames fs cid = [] → (get_latest_snapshot fs cid).1 = none) ∧
    (∀ nm ∈ matchingNames fs cid,
      ∃ f ∈ fs.files, f.dir = cid ∧ globMatch cid f.name = true ∧
        (∀ g ∈ fs.files, g.dir = cid → globMatch cid g.name = true →
          strLeB g.name f.name = true) ∧
        (get_latest_snapshot fs cid).1 = some f.content) := by
  constructor
  · intro hnil
    simp [get_latest_snapshot, matchingNames_company_dir, hnil, sortDesc]
  · intro nm hnm
    rcases e : sortDesc (matchingNames fs cid) with _ | ⟨topn, t⟩
    · exfalso
      have : matchingNames fs cid = [] := by
        have := sortDesc_perm (matchingNames fs cid)
        rw [e] at this
        exact this.symm.eq_nil
      rw [this] at hnm
      exact List.not_mem_nil nm hnm
    · rcases sortDesc_head_max e with ⟨htop, hmax⟩
      rcases List.mem_map.mp htop with ⟨f, hf_filter, rfl⟩
      rcases List.mem_filter.mp hf_filter with ⟨hf_mem, hf_pred⟩
      rcases Bool.and_eq_true_iff.mp hf_pred with ⟨hf_dir, hf_glob⟩
      have hf_dir' : f.dir = cid := by simpa using hf_dir
      refine ⟨f, hf_mem, hf_dir', hf_glob, ?_, ?_⟩
      · intro g hg hgdir hgglob
        apply hmax
        unfold matchingNames
        exact List.mem_map.mpr ⟨g, List.mem_filter.mpr
          ⟨hg, by simp [hgdir, hgglob]⟩, rfl⟩
      · simp only [get_latest_snapshot, matchingNames_company_dir, e]
        simp only [readFile, company_dir_files]
        rcases efind : fs.files.find? (fun g => g.dir == cid && g.name == f.name)
            with _ | g
        · exfalso
          have := List.find?_eq_none.mp efind f hf_mem
          simp [hf_dir'] at this
        · have hpred := List.find?_some efind
          have hgmem := List.mem_of_find?_eq_some efind
          rcases Bool.and_eq_true_iff.mp hpred with ⟨hgdir, hgname⟩
          have hgf : g = f := by
            apply List.inj_on_of_nodup_map hwf hgmem hf_mem
            simp only [Prod.mk.injEq]
            exact ⟨by rw [show g.dir = cid by simpa using hgdir, hf_dir'],
                   by simpa using hgname⟩
          rw [efind, hgf]
          rfl

theorem C5_latest_by_save_key_witness :
    (get_latest_snapshot ({ dirs := ["webel"], files := [] } : FS) "webel").1 =
      none ∧
    ∃ f ∈ ({ dirs := ["fixo"],
             files := [{ dir := "fixo", name := "fixo_20260101_000000.json",
                         content := { company_id := "fixo", timestamp := "t",
                                      services := [], pricing := [],
                                      locations := [], promotions := [],
                                      business_info := [], raw_pages := [],
                                      metadata := [] } }] } : FS).files,
      f.dir = "fixo" ∧ globMatch "fixo" f.name = true ∧
      (∀ g ∈ ({ dirs := ["fixo"],
                files := [{ dir := "fixo", name := "fixo_20260101_000000.json",
                            content := { company_id := "fixo", timestamp := "t",
                                         services := [], pricing := [],
                                         locations := [], promotions := [],
                                         business_info := [], raw_pages := [],
                                         metadata := [] } }] } : FS).files,
        g.dir = "fixo" → globMatch "fixo" g.name = true →
          strLeB g.name f.name = true) ∧
      (get_latest_snapshot
          { dirs := ["fixo"],
            files := [{ dir := "fixo", name := "fixo_20260101_000000.json",
                        content := { company_id := "fixo", timestamp := "t",
                                     services := [], pricing := [],
                                     locations := [], promotions := [],
                                     business_info := [], raw_pages := [],
                                     metadata := [] } }] } "fixo").1 =
        some f.content :=
  ⟨(C5_latest_by_save_key { dirs := ["webel"], files := [] } "webel"
      (by unfold FS.WF; decide)).1 (by decide),
   (C5_latest_by_save_key
      { dirs := ["fixo"],
        files := [{ dir := "fixo", name := "fixo_20260101_000000.json",
                    content := { company_id := "fixo", timestamp := "t",
                                 services := [], pricing := [],
                                 locations := [], promotions := [],
                                 business_info := [], raw_pages := [],
                                 metadata := [] } }] } "fixo"
      (by unfold FS.WF; decide)).2
    "fixo_20260101_000000.json" (by decide)⟩

/-! ### Retention (C6): a sequence of saves for one entity -/

/-- The file created by saving snapshot/save-key pair `p` for entity `cid`. -/
def mkFile (cid : String) (p : CompanySnapshot × String) : FSFile :=
  { dir := cid, name := mkName cid p.2, content := p.1 }

/-- Run `save_snapshot` over a list of (snapshot, save-time key) pairs. -/
def saveAll (maxN : Nat) (fs : FS) : List (CompanySnapshot × String) → FS
  | [] => fs
  | p :: rest => saveAll maxN (save_snapshot maxN fs p.1 p.2).2 rest

theorem fsWrite_fresh {l : List FSFile} {dir name : String} {c : CompanySnapshot}
    (h : ∀ f ∈ l, ¬(f.dir = dir ∧ f.name = name)) :
    fsWrite l dir name c = l ++ [{ dir := dir, name := name, content := c }] := by
  induction l with
  | nil => rfl
  | cons f fsf ih =>
    rw [fsWrite, if_neg (h f (List.mem_cons_self f fsf))]
    rw [ih (fun g hg => h g (List.mem_cons_of_mem f hg))]
    rfl

theorem matchingNames_all {fs : FS} {cid : String}
    (h : ∀ f ∈ fs.files, f.dir = cid ∧ globMatch cid f.name = true) :
    matchingNames fs cid = fs.files.map FSFile.name := by
  unfold matchingNames
  rw [List.filter_eq_self.mpr]
  intro f hf
  rcases h f hf with ⟨h1, h2⟩
  simp [h1, h2]

theorem strLtB_ne {a b : String} (h : strLtB a b = true) : a ≠ b := by
  intro e
  rw [e, strLtB_irrefl] at h
  exact absurd h (by simp)

theorem saveAll_nil (maxN : Nat) (fs : FS) : saveAll maxN fs [] = fs := rfl


/-- The pruning case of `_cleanup_old_snapshots`: with `maxN + 1` stored
matching files whose names ascend strictly, exactly the oldest (first
created, smallest name) file is unlinked. -/
theorem cleanup_prune {maxN : Nat} {fs : FS} {cid : String} {m0 : String}
    {ms' : List String}
    (hall : ∀ f ∈ fs.files, f.dir = cid ∧ globMatch cid f.name = true)
    (hnames : fs.files.map FSFile.name = m0 :: ms')
    (hlen : ms'.length = maxN)
    (hsorted : (m0 :: ms').Pairwise (fun a b => strLtB a b = true)) :
    (cleanup_old_snapshots maxN fs cid).files = fs.files.drop 1 := by
  have hmn : matchingNames fs cid = m0 :: ms' := by
    rw [matchingNames_all hall, hnames]
  have hsort : sortDesc (matchingNames fs cid) = ms'.reverse ++ [m0] := by
    rw [hmn, sortDesc_of_strict_asc hsorted, List.reverse_cons]
  have hdrop : (sortDesc (matchingNames fs cid)).drop maxN = [m0] := by
    rw [hsort, ← hlen, ← List.length_reverse]
    exact List.drop_left _ _
  have hcond : (sortDesc (matchingNames fs cid)).length > maxN := by
    rw [(sortDesc_perm _).length_eq, hmn]
    simp [hlen]
  rcases efs : fs.files with _ | ⟨f0, rest⟩
  · rw [efs] at hnames; exact absurd hnames (by simp)
  · have hf0name : f0.name = m0 := by
      rw [efs] at hnames
      exact (List.cons.injEq _ _ _ _ ▸ hnames).1
    have hrest : rest.map FSFile.name = ms' := by
      rw [efs] at hnames
      exact ((List.cons.injEq _ _ _ _ ▸ hnames) : _ ∧ _).2
    have hf0pred : ¬ ((!(f0.dir == cid &&
        ((sortDesc (matchingNames fs cid)).drop maxN).contains f0.name)) = true) := by
      have hd : f0.dir = cid :=
        (hall f0 (by rw [efs]; exact List.mem_cons_self _ _)).1
      rw [hdrop]
      simp [hd, hf0name]
    have hkeep : ∀ f ∈ rest, (!(f.dir == cid &&
        ((sortDesc (matchingNames fs cid)).drop maxN).contains f.name)) = true := by
      intro f hf
      have hfm : f.name ∈ ms' := by
        rw [← hrest]
        exact List.mem_map_of_mem FSFile.name hf
      have hne : f.name ≠ m0 := by
        intro e
        have hlt := (List.pairwise_cons.mp hsorted).1 f.name hfm
        rw [e, strLtB_irrefl] at hlt
        exact absurd hlt (by simp)
      rw [hdrop]
      simp [hne]
    simp only [cleanup_old_snapshots, matchingNames_company_dir]
    rw [if_pos hcond]
    simp only [company_dir_files, efs]
    have hf0pred' : (!(f0.dir == cid &&
        ((sortDesc (matchingNames fs cid)).drop maxN).contains f0.name)) = false := by
      simpa using hf0pred
    rw [List.filter_cons, hf0pred']
    simp only [Bool.false_eq_true, if_false]
    rw [List.filter_eq_self.mpr hkeep]
    rfl

/-- One save step under the retention invariant: the stored files are the
most recent `min done.length maxN` saves in save order; saving a strictly
fresher key appends a new file, and the cleanup prunes exactly the oldest
stored file when the bound was already reached. -/
theorem save_step (maxN : Nat) (cid : String)
    (done : List (CompanySnapshot × String)) (p : CompanySnapshot × String)
    (fs : FS)
    (hp : p.1.company_id = cid)
    (hlt : ∀ q ∈ done, strLtB (mkName cid q.2) (mkName cid p.2) = true)
    (hsorted : (done.map (fun q => mkName cid q.2)).Pairwise
      (fun a b => strLtB a b = true))
    (hfiles : fs.files = (done.drop (done.length - maxN)).map (mkFile cid)) :
    (save_snapshot maxN fs p.1 p.2).2.files =
      ((done ++ [p]).drop ((done ++ [p]).length - maxN)).map (mkFile cid) := by
  set act := done.drop (done.length - maxN) with hact
  have hact_sub : List.Sublist act done := List.drop_sublist _ done
  have hact_lt : ∀ q ∈ act, strLtB (mkName cid q.2) (mkName cid p.2) = true :=
    fun q hq => hlt q (hact_sub.mem hq)
  have hact_len : act.length = done.length - (done.length - maxN) := by
    rw [hact]; exact List.length_drop _ _
  have hact_le : act.length ≤ maxN := by omega
  have hwrite : fsWrite fs.files cid (mkName cid p.2) p.1 =
      (act ++ [p]).map (mkFile cid) := by
    rw [hfiles, fsWrite_fresh, List.map_append]
    · rfl
    · intro f hf hcontra
      rcases List.mem_map.mp hf with ⟨q, hq, rfl⟩
      exact strLtB_ne (hact_lt q hq) hcontra.2
  have hall : ∀ f ∈ (act ++ [p]).map (mkFile cid),
      f.dir = cid ∧ globMatch cid f.name = true := by
    intro f hf
    rcases List.mem_map.mp hf with ⟨q, _, rfl⟩
    exact ⟨rfl, globMatch_mkName cid q.2⟩
  have hns_sorted : ((act ++ [p]).map (fun q => mkName cid q.2)).Pairwise
      (fun a b => strLtB a b = true) := by
    rw [List.map_append]
    apply List.pairwise_append.mpr
    refine ⟨hsorted.sublist (hact_sub.map _), List.pairwise_singleton _ _, ?_⟩
    intro a ha b hb
    rcases List.mem_map.mp ha with ⟨q, hq, rfl⟩
    rcases List.mem_singleton.mp hb
    exact hact_lt q hq
  simp only [save_snapshot, hp]
  rw [show (company_dir fs cid).files = fs.files from company_dir_files fs cid,
      hwrite]
  by_cases hcase : act.length + 1 ≤ maxN
  · -- bound not yet reached: no pruning
    have hdl : done.length < maxN := by omega
    have hcleanup := @cleanup_of_le maxN
      { dirs := (company_dir fs cid).dirs,
        files := (act ++ [p]).map (mkFile cid) }
      cid
      (by rw [matchingNames_all hall]; simpa using hcase)
    rw [hcleanup, company_dir_files]
    have hactdone : act = done := by
      rw [hact, show done.length - maxN = 0 by omega]
      rfl
    rw [hactdone, show (done ++ [p]).length - maxN = 0 by simp; omega]
    rfl
  · -- bound reached: act.length = maxN and the oldest entry is pruned
    have hlen_eq : act.length = maxN := by omega
    have hdl : maxN ≤ done.length := by omega
    rcases ens : (act ++ [p]).map (fun q => mkName cid q.2) with _ | ⟨m0, ms'⟩
    · exact absurd (congrArg List.length ens) (by simp)
    · have hms'len : ms'.length = maxN := by
        have := congrArg List.length ens
        simp at this
        omega
      have hnames : ((act ++ [p]).map (mkFile cid)).map FSFile.name = m0 :: ms' := by
        rw [List.map_map, ← ens]
        rfl
      have hprune := @cleanup_prune maxN
        { dirs := (company_dir fs cid).dirs,
          files := (act ++ [p]).map (mkFile cid) }
        cid m0 ms'
        hall hnames hms'len (by rw [← ens]; exact hns_sorted)
      rw [hprune]
      show ((act ++ [p]).map (mkFile cid)).drop 1 = _
      rw [← List.map_drop]
      congr 1
      by_cases hmax0 : maxN = 0
      · subst hmax0
        have : act = [] := List.eq_nil_of_length_eq_zero hlen_eq
        rw [this]
        simp only [List.nil_append, List.length_append]
        rw [List.drop_eq_nil_of_le (by simp), List.drop_eq_nil_of_le (by simp)]
      · have h1le : 1 ≤ act.length := by omega
        rw [List.drop_append_of_le_length h1le, hact, List.drop_drop,
          show (done ++ [p]).length - maxN = (done.length - maxN) + 1 by
            simp; omega,
          List.drop_append_of_le_length (by omega)]

/-- The retention invariant over a whole run of saves: starting from a state
holding the newest `min done.length maxN` of the already-performed saves,
performing the remaining saves (with strictly ascending keys) leaves exactly
the newest `min total maxN` saves stored, in save order. -/
theorem saveAll_files (maxN : Nat) (cid : String)
    (rest : List (CompanySnapshot × String)) :
    ∀ (done : List (CompanySnapshot × String)) (fs : FS),
      (∀ p ∈ done ++ rest, p.1.company_id = cid) →
      ((done ++ rest).map (fun q => mkName cid q.2)).Pairwise
        (fun a b => strLtB a b = true) →
      fs.files = (done.drop (done.length - maxN)).map (mkFile cid) →
      (saveAll maxN fs rest).files =
        ((done ++ rest).drop ((done ++ rest).length - maxN)).map (mkFile cid) := by
  induction rest with
  | nil =>
    intro done fs _ _ hfiles
    rw [saveAll_nil, List.append_nil]
    exact hfiles
  | cons p rest' ih =>
    intro done fs hcid hsorted hfiles
    have hmap_app : (done ++ p :: rest').map (fun q => mkName cid q.2) =
        done.map (fun q => mkName cid q.2) ++
          (p :: rest').map (fun q => mkName cid q.2) := List.map_append _ _ _
    have hpw := List.pairwise_append.mp (by rw [← hmap_app]; exact hsorted)
    have hlt : ∀ q ∈ done, strLtB (mkName cid q.2) (mkName cid p.2) = true := by
      intro q hq
      exact hpw.2.2 _ (List.mem_map_of_mem _ hq) _ (by simp)
    have hstep := save_step maxN cid done p fs
      (hcid p (by simp)) hlt hpw.1 hfiles
    show (saveAll maxN (save_snapshot maxN fs p.1 p.2).2 rest').files = _
    have hres := ih (done ++ [p]) (save_snapshot maxN fs p.1 p.2).2
      (by
        intro q hq
        apply hcid
        rw [List.append_assoc] at hq
        simpa using hq)
      (by
        rw [List.append_assoc]
        simpa using hsorted)
      hstep
    rw [hres, List.append_assoc]
    rfl

/-- On a state storing exactly the files of `pairs` (with pairwise distinct
save keys), reading back a pair's file returns that pair's snapshot. -/
theorem find?_mkFile {cid : String} (pairs : List (CompanySnapshot × String))
    (hnodup : (pairs.map (fun q => mkName cid q.2)).Nodup)
    (q : CompanySnapshot × String) (hq : q ∈ pairs) :
    (pairs.map (mkFile cid)).find?
        (fun f => f.dir == cid && f.name == mkName cid q.2) =
      some (mkFile cid q) := by
  induction pairs with
  | nil => cases hq
  | cons q0 rest ih =>
    rw [List.map_cons]
    by_cases he : mkName cid q0.2 = mkName cid q.2
    · have hq0 : q0 = q := by
        rcases List.mem_cons.mp hq with rfl | hq'
        · rfl
        · exfalso
          have hnotin : mkName cid q0.2 ∉ rest.map (fun q => mkName cid q.2) := by
            simpa using (List.nodup_cons.mp hnodup).1
          rw [he] at hnotin
          exact hnotin (List.mem_map_of_mem _ hq')
      rw [List.find?_cons_of_pos]
      · rw [hq0]
      · simp [mkFile, he]
    · have hq' : q ∈ rest := by
        rcases List.mem_cons.mp hq with rfl | hq'
        · exact absurd rfl he
        · exact hq'
      rw [List.find?_cons_of_neg]
      · exact ih (List.nodup_cons.mp hnodup).2 hq'
      · simp [mkFile, he]

theorem readFile_mkFile {cid : String} {pairs : List (CompanySnapshot × String)}
    {fs : FS} (hfiles : fs.files = pairs.map (mkFile cid))
    (hnodup : (pairs.map (fun q => mkName cid q.2)).Nodup)
    (q : CompanySnapshot × String) (hq : q ∈ pairs) :
    readFile fs cid (mkName cid q.2) = some q.1 := by
  unfold readFile
  rw [hfiles, find?_mkFile pairs hnodup q hq]
  rfl

theorem filterMap_all_some {α β : Type} (f : α → Option β) (g : α → β)
    (l : List α) (h : ∀ a ∈ l, f a = some (g a)) : l.filterMap f = l.map g := by
  induction l with
  | nil => rfl
  | cons a as ih =>
    rw [List.filterMap_cons, h a (by simp), List.map_cons,
      ih (fun b hb => h b (List.mem_cons_of_mem a hb))]

/-- C6: for one entity with retention bound `maxN`, after `maxN + 1` saves
(with the save-time keys strictly ascending, as produced by a ticking
second-resolution clock) the `get_all_snapshots` query returns exactly
`maxN` snapshots, newest first, and the returned history is exactly all the
saves except the single oldest one — pruning deleted oldest-first, leaving
exactly `maxN`. -/
theorem C6_retention_bound (maxN : Nat) (cid : String)
    (l : List (CompanySnapshot × String))
    (hcid : ∀ p ∈ l, p.1.company_id = cid)
    (hmono : (l.map (fun q => mkName cid q.2)).Pairwise
      (fun a b => strLtB a b = true))
    (hlen : l.length = maxN + 1) :
    (get_all_snapshots (saveAll maxN initFS l) cid).1 =
      ((l.map Prod.fst).drop 1).reverse ∧
    (get_all_snapshots (saveAll maxN initFS l) cid).1.length = maxN := by
  have hfiles : (saveAll maxN initFS l).files = (l.drop 1).map (mkFile cid) := by
    have hinv := saveAll_files maxN cid l [] initFS
      (by simpa using hcid) (by simpa using hmono) (by simp [initFS])
    rw [List.nil_append] at hinv
    rw [hinv, hlen]
    rw [show maxN + 1 - maxN = 1 by omega]
  have hall : ∀ f ∈ (saveAll maxN initFS l).files,
      f.dir = cid ∧ globMatch cid f.name = true := by
    intro f hf
    rw [hfiles] at hf
    rcases List.mem_map.mp hf with ⟨q, _, rfl⟩
    exact ⟨rfl, globMatch_mkName cid q.2⟩
  have hmn : matchingNames (saveAll maxN initFS l) cid =
      (l.drop 1).map (fun q => mkName cid q.2) := by
    rw [matchingNames_all hall, hfiles, List.map_map]
    rfl
  have hns_sorted : ((l.drop 1).map (fun q => mkName cid q.2)).Pairwise
      (fun a b => strLtB a b = true) := by
    rw [List.map_drop]
    exact hmono.sublist (List.drop_sublist _ _)
  have hnodup : ((l.drop 1).map (fun q => mkName cid q.2)).Nodup :=
    hns_sorted.imp strLtB_ne
  have hmain : (get_all_snapshots (saveAll maxN initFS l) cid).1 =
      ((l.map Prod.fst).drop 1).reverse := by
    simp only [get_all_snapshots, matchingNames_company_dir, hmn,
      sortDesc_of_strict_asc hns_sorted]
    rw [← List.map_reverse, List.filterMap_map]
    simp only [Function.comp_def]
    rw [filterMap_all_some _ Prod.fst _
      (fun q hq => readFile_mkFile
        (by rw [company_dir_files]; exact hfiles) hnodup q
        (List.mem_reverse.mp hq))]
    rw [List.map_reverse, List.map_drop]
  refine ⟨hmain, ?_⟩
  rw [hmain]
  simp [hlen]

theorem C6_retention_bound_witness :
    (∀ p ∈ [(({ company_id := "fixo", timestamp := "t1", services := ["a"],
                pricing := [], locations := [], promotions := [],
                business_info := [], raw_pages := [], metadata := [] } :
                  CompanySnapshot), "20260101_000001"),
             ({ company_id := "fixo", timestamp := "t2", services := ["b"],
                pricing := [], locations := [], promotions := [],
                business_info := [], raw_pages := [], metadata := [] },
               "20260101_000002"),
             ({ company_id := "fixo", timestamp := "t3", services := ["c"],
                pricing := [], locations := [], promotions := [],
                business_info := [], raw_pages := [], metadata := [] },
               "20260101_000003")], p.1.company_id = "fixo") ∧
    (get_all_snapshots (saveAll 2 initFS
        [({ company_id := "fixo", timestamp := "t1", services := ["a"],
            pricing := [], locations := [], promotions := [],
            business_info := [], raw_pages := [], metadata := [] },
           "20260101_000001"),
         ({ company_id := "fixo", timestamp := "t2", services := ["b"],
            pricing := [], locations := [], promotions := [],
            business_info := [], raw_pages := [], metadata := [] },
           "20260101_000002"),
         ({ company_id := "fixo", timestamp := "t3", services := ["c"],
            pricing := [], locations := [], promotions := [],
            business_info := [], raw_pages := [], metadata := [] },
           "20260101_000003")]) "fixo").1 =
      [{ company_id := "fixo", timestamp := "t3", services := ["c"],
         pricing := [], locations := [], promotions := [],
         business_info := [], raw_pages := [], metadata := [] },
       { company_id := "fixo", timestamp := "t2", services := ["b"],
         pricing := [], locations := [], promotions := [],
         business_info := [], raw_pages := [], metadata := [] }] :=
  ⟨by decide,
   ((C6_retention_bound 2 "fixo"
      [({ company_id := "fixo", timestamp := "t1", services := ["a"],
          pricing := [], locations := [], promotions := [],
          business_info := [], raw_pages := [], metadata := [] },
         "20260101_000001"),
       ({ company_id := "fixo", timestamp := "t2", services := ["b"],
          pricing := [], locations := [], promotions := [],
          business_info := [], raw_pages := [], metadata := [] },
         "20260101_000002"),
       ({ company_id := "fixo", timestamp := "t3", services := ["c"],
          pricing := [], locations := [], promotions := [],
          business_info := [], raw_pages := [], metadata := [] },
         "20260101_000003")]
      (by decide) (by decide) rfl).1).trans (by decide)⟩

/-! ### Direction anti-symmetry of the diff (C7) -/

/-- Swaps each added-type change type for its removed-type counterpart and
vice versa; value-carrying types (`price_changed`, `business_model_change`,
`website_content_change`) are their own counterpart. -/
def flipType (t : String) : String :=
  if t = "service_added" then "service_removed"
  else if t = "service_removed" then "service_added"
  else if t = "location_added" then "location_removed"
  else if t = "location_removed" then "location_added"
  else if t = "promotion_new" then "promotion_expired"
  else if t = "promotion_expired" then "promotion_new"
  else t

/-- The direction-swap on a Change: counterpart type, values exchanged. -/
def flipChange (c : Change) : Change :=
  { c with change_type := flipType c.change_type,
           old_value := c.new_value, new_value := c.old_value }

/-- Forgets the per-direction presentation fields (description text and
severity), which the directional claim is silent about. -/
def eraseVolatile (c : Change) : Change :=
  { c with description := "", severity := "" }

theorem services_flip (o n : CompanySnapshot) (ts : String)
    (h : o.company_id = n.company_id) :
    List.Perm
      ((detect_service_changes o n ts).map (fun c => eraseVolatile (flipChange c)))
      ((detect_service_changes n o ts).map eraseVolatile) := by
  unfold detect_service_changes
  rw [h]
  simp only [List.map_append, List.map_map, Function.comp_def, eraseVolatile,
    flipChange, flipType]
  simp only [reduceIte]
  exact List.perm_append_comm

theorem locations_flip (o n : CompanySnapshot) (ts : String)
    (h : o.company_id = n.company_id) :
    List.Perm
      ((detect_location_changes o n ts).map (fun c => eraseVolatile (flipChange c)))
      ((detect_location_changes n o ts).map eraseVolatile) := by
  unfold detect_location_changes
  rw [h]
  simp only [List.map_append, List.map_map, Function.comp_def, eraseVolatile,
    flipChange, flipType]
  simp only [reduceIte]
  exact List.perm_append_comm

theorem promotions_flip (o n : CompanySnapshot) (ts : String)
    (h : o.company_id = n.company_id) :
    List.Perm
      ((detect_promotion_changes o n ts).map (fun c => eraseVolatile (flipChange c)))
      ((detect_promotion_changes n o ts).map eraseVolatile) := by
  unfold detect_promotion_changes
  rw [h]
  simp only [List.map_append, List.map_map, Function.comp_def, eraseVolatile,
    flipChange, flipType]
  simp only [reduceIte]
  exact List.perm_append_comm

theorem foldl_append_eq_flatMap {α β : Type} (em : α → List β) (keys : List α) :
    ∀ acc, keys.foldl (fun ch k => ch ++ em k) acc = acc ++ keys.flatMap em := by
  induction keys with
  | nil => intro acc; simp
  | cons k ks ih => intro acc; simp [ih, List.flatMap_cons]

theorem detect_pricing_changes_eq_flatMap (o n : CompanySnapshot) (ts : String) :
    detect_pricing_changes o n ts =
      (unionKeys o.pricing n.pricing).flatMap (pricingEmit o n ts) := by
  unfold detect_pricing_changes
  rw [foldl_append_eq_flatMap]
  rfl

theorem detect_page_changes_eq_flatMap (o n : CompanySnapshot) (ts : String) :
    detect_page_changes o n ts =
      (unionKeys o.raw_pages n.raw_pages).flatMap (pageEmit o n ts) := by
  unfold detect_page_changes
  rw [foldl_append_eq_flatMap]
  rfl

theorem unionKeys_perm (d1 d2 : List (String × String)) :
    List.Perm (unionKeys d1 d2) (unionKeys d2 d1) := by
  apply (List.perm_ext_iff_of_nodup (List.nodup_dedup _) (List.nodup_dedup _)).mpr
  intro a
  simp only [unionKeys, List.mem_dedup, List.mem_append]
  exact or_comm

theorem pricingEmit_flip (o n : CompanySnapshot) (ts k : String)
    (h : o.company_id = n.company_id) :
    (pricingEmit o n ts k).map (fun c => eraseVolatile (flipChange c)) =
      (pricingEmit n o ts k).map eraseVolatile := by
  cases ho : alookup k o.pricing with
  | none =>
    cases hn : alookup k n.pricing with
    | none => simp [pricingEmit, ho, hn]
    | some b =>
      simp only [pricingEmit, ho, hn, h, List.map_cons, List.map_nil]
      rfl
  | some a =>
    cases hn : alookup k n.pricing with
    | none =>
      simp only [pricingEmit, ho, hn, h, List.map_cons, List.map_nil]
      rfl
    | some b =>
      by_cases hab : a = b
      · subst hab
        simp [pricingEmit, ho, hn]
      · have hba : ¬ b = a := fun e => hab e.symm
        simp only [pricingEmit, ho, hn, h, ne_eq, hab, hba, not_false_eq_true,
          if_true, List.map_cons, List.map_nil]
        rfl

theorem pageEmit_flip (o n : CompanySnapshot) (ts p : String)
    (h : o.company_id = n.company_id) :
    (pageEmit o n ts p).map (fun c => eraseVolatile (flipChange c)) =
      (pageEmit n o ts p).map eraseVolatile := by
  by_cases hc : alookupD o.raw_pages p ≠ "" ∧ alookupD n.raw_pages p ≠ "" ∧
      alookupD o.raw_pages p ≠ alookupD n.raw_pages p
  · have hc' : alookupD n.raw_pages p ≠ "" ∧ alookupD o.raw_pages p ≠ "" ∧
        alookupD n.raw_pages p ≠ alookupD o.raw_pages p :=
      ⟨hc.2.1, hc.1, fun e => hc.2.2 e.symm⟩
    simp only [pageEmit, h, if_pos hc, if_pos hc', List.map_cons, List.map_nil]
    rfl
  · have hc' : ¬(alookupD n.raw_pages p ≠ "" ∧ alookupD o.raw_pages p ≠ "" ∧
        alookupD n.raw_pages p ≠ alookupD o.raw_pages p) :=
      fun hx => hc ⟨hx.2.1, hx.1, fun e => hx.2.2 e.symm⟩
    simp only [pageEmit, if_neg hc, if_neg hc', List.map_nil]

theorem business_flip (o n : CompanySnapshot) (ts : String)
    (h : o.company_id = n.company_id) :
    (detect_business_changes o n ts).map (fun c => eraseVolatile (flipChange c)) =
      (detect_business_changes n o ts).map eraseVolatile := by
  by_cases hc : alookupD o.business_info "about_text_hash" ≠ "" ∧
      alookupD n.business_info "about_text_hash" ≠ "" ∧
      alookupD o.business_info "about_text_hash" ≠
        alookupD n.business_info "about_text_hash"
  · have hc' : alookupD n.business_info "about_text_hash" ≠ "" ∧
        alookupD o.business_info "about_text_hash" ≠ "" ∧
        alookupD n.business_info "about_text_hash" ≠
          alookupD o.business_info "about_text_hash" :=
      ⟨hc.2.1, hc.1, fun e => hc.2.2 e.symm⟩
    simp only [detect_business_changes, h, if_pos hc, if_pos hc',
      List.map_cons, List.map_nil]
    rfl
  · have hc' : ¬(alookupD n.business_info "about_text_hash" ≠ "" ∧
        alookupD o.business_info "about_text_hash" ≠ "" ∧
        alookupD n.business_info "about_text_hash" ≠
          alookupD o.business_info "about_text_hash") :=
      fun hx => hc ⟨hx.2.1, hx.1, fun e => hx.2.2 e.symm⟩
    simp only [detect_business_changes, if_neg hc, if_neg hc', List.map_nil]

theorem pricing_flip (o n : CompanySnapshot) (ts : String)
    (h : o.company_id = n.company_id) :
    List.Perm
      ((detect_pricing_changes o n ts).map (fun c => eraseVolatile (flipChange c)))
      ((detect_pricing_changes n o ts).map eraseVolatile) := by
  rw [detect_pricing_changes_eq_flatMap, detect_pricing_changes_eq_flatMap,
    List.map_flatMap, List.map_flatMap]
  rw [funext (fun k => pricingEmit_flip o n ts k h)]
  exact (unionKeys_perm o.pricing n.pricing).flatMap_right _

theorem pages_flip (o n : CompanySnapshot) (ts : String)
    (h : o.company_id = n.company_id) :
    List.Perm
      ((detect_page_changes o n ts).map (fun c => eraseVolatile (flipChange c)))
      ((detect_page_changes n o ts).map eraseVolatile) := by
  rw [detect_page_changes_eq_flatMap, detect_page_changes_eq_flatMap,
    List.map_flatMap, List.map_flatMap]
  rw [funext (fun p => pageEmit_flip o n ts p h)]
  exact (unionKeys_perm o.raw_pages n.raw_pages).flatMap_right _

/-- C7: for snapshots of the same entity, `diff(old,new)` and `diff(new,old)`
contain the same collection of affected items with directions swapped: after
exchanging each added-type change for the corresponding removed-type change
(and vice versa) and swapping `old_value` with `new_value` — ignoring the
direction-specific description text and severity, about which the claim is
silent — the two change lists are equal as multisets. -/
theorem C7_diff_direction_antisymmetry (old new : CompanySnapshot) (ts : String)
    (h : old.company_id = new.company_id) :
    ∃ l l', detect_changes old new ts = Except.ok l ∧
      detect_changes new old ts = Except.ok l' ∧
      (↑(l.map (fun c => eraseVolatile (flipChange c))) : Multiset Change) =
        ↑(l'.map eraseVolatile) := by
  have e1 : detect_changes old new ts =
      Except.ok (detect_service_changes old new ts
        ++ detect_pricing_changes old new ts
        ++ detect_location_changes old new ts
        ++ detect_promotion_changes old new ts
        ++ detect_business_changes old new ts
        ++ detect_page_changes old new ts) := by
    unfold detect_changes
    rw [if_neg (by simp [h])]
  have e2 : detect_changes new old ts =
      Except.ok (detect_service_changes new old ts
        ++ detect_pricing_changes new old ts
        ++ detect_location_changes new old ts
        ++ detect_promotion_changes new old ts
        ++ detect_business_changes new old ts
        ++ detect_page_changes new old ts) := by
    unfold detect_changes
    rw [if_neg (by simp [h.symm])]
  refine ⟨_, _, e1, e2, ?_⟩
  apply Multiset.coe_eq_coe.mpr
  simp only [List.map_append]
  exact ((((((services_flip old new ts h).append
    (pricing_flip old new ts h)).append
    (locations_flip old new ts h)).append
    (promotions_flip old new ts h)).append
    ((business_flip old new ts h) ▸ List.Perm.refl _)).append
    (pages_flip old new ts h))

theorem C7_diff_direction_antisymmetry_witness :
    ∃ l l', detect_changes
        { company_id := "fixo", timestamp := "t1", services := ["A", "B"],
          pricing := [("basic", "10€")], locations := ["Lisboa"],
          promotions := [], business_info := [], raw_pages := [],
          metadata := [] }
        { company_id := "fixo", timestamp := "t2", services := ["B", "C"],
          pricing := [("basic", "12€")], locations := [],
          promotions := ["promo"], business_info := [], raw_pages := [],
          metadata := [] } "now" = Except.ok l ∧
      detect_changes
        { company_id := "fixo", timestamp := "t2", services := ["B", "C"],
          pricing := [("basic", "12€")], locations := [],
          promotions := ["promo"], business_info := [], raw_pages := [],
          metadata := [] }
        { company_id := "fixo", timestamp := "t1", services := ["A", "B"],
          pricing := [("basic", "10€")], locations := ["Lisboa"],
          promotions := [], business_info := [], raw_pages := [],
          metadata := [] } "now" = Except.ok l' ∧
      (↑(l.map (fun c => eraseVolatile (flipChange c))) : Multiset Change) =
        ↑(l'.map eraseVolatile) :=
  C7_diff_direction_antisymmetry
    { company_id := "fixo", timestamp := "t1", services := ["A", "B"],
      pricing := [("basic", "10€")], locations := ["Lisboa"],
      promotions := [], business_info := [], raw_pages := [],
      metadata := [] }
    { company_id := "fixo", timestamp := "t2", services := ["B", "C"],
      pricing := [("basic", "12€")], locations := [],
      promotions := ["promo"], business_info := [], raw_pages := [],
      metadata := [] } "now" rfl

/-- The pricing rule as the spec's table states it: iterate the union of
keys of both pricing mappings; for each key, a key that appears (missing in
old, present in new) yields one medium `price_changed` carrying only the new
value; a key that disappears yields one medium `price_changed` carrying only
the old value; a key present on both sides with equal values yields nothing,
with differing values one high `price_changed` carrying both.  (The spec
fixes change type, category, severity and values; the human-readable
description text, about which it is silent, is taken from the code.) -/
def pricing_diff_spec (old new : CompanySnapshot) (ts : String) : List Change :=
  (unionKeys old.pricing new.pricing).flatMap (fun key =>
    match alookup key old.pricing, alookup key new.pricing with
    | none, none => []
    | none, some new_price =>
      [{ company_id := new.company_id
         change_type := "price_changed"
         category := "pricing"
         description := "Novo preço registado para: " ++ key
         old_value := none
         new_value := some new_price
         timestamp := ts
         severity := "medium" }]
    | some old_price, none =>
      [{ company_id := new.company_id
         change_type := "price_changed"
         category := "pricing"
         description := "Preço removido para: " ++ key
         old_value := some old_price
         new_value := none
         timestamp := ts
         severity := "medium" }]
    | some old_price, some new_price =>
      if old_price = new_price then []
      else
        [{ company_id := new.company_id
           change_type := "price_changed"
           category := "pricing"
           description :=
             "Preço alterado para " ++ key ++ ": " ++ old_price ++ " -> "
               ++ new_price
           old_value := some old_price
           new_value := some new_price
           timestamp := ts
           severity := "high" }])

/-- C8: the pricing diff implements exactly the spec's per-key table over
the union of keys (first conjunct, for all snapshots), and on Scenario B —
old pricing basic↦10€, new pricing basic↦12€ — it emits exactly one
`price_changed` of severity high carrying old_value "10€" and new_value
"12€" (second conjunct). -/
theorem C8_pricing_table :
    (∀ (old new : CompanySnapshot) (ts : String),
      detect_pricing_changes old new ts = pricing_diff_spec old new ts) ∧
    detect_pricing_changes
        { company_id := "fixo", timestamp := "t1", services := [],
          pricing := [("basic", "10€")], locations := [], promotions := [],
          business_info := [], raw_pages := [], metadata := [] }
        { company_id := "fixo", timestamp := "t2", services := [],
          pricing := [("basic", "12€")], locations := [], promotions := [],
          business_info := [], raw_pages := [], metadata := [] } "now" =
      [{ company_id := "fixo", change_type := "price_changed",
         category := "pricing",
         description := "Preço alterado para basic: 10€ -> 12€",
         old_value := some "10€", new_value := some "12€",
         timestamp := "now", severity := "high" }] := by
  constructor
  · intro old new ts
    rw [detect_pricing_changes_eq_flatMap]
    unfold pricing_diff_spec
    congr 1
    funext key
    unfold pricingEmit
    cases alookup key old.pricing with
    | none => cases alookup key new.pricing <;> rfl
    | some a =>
      cases alookup key new.pricing with
      | none => rfl
      | some b =>
        by_cases hab : a = b
        · simp [hab]
        · simp [hab]
  · decide

theorem alookup_some_mem {d : List (String × String)} {k v : String}
    (h : alookup k d = some v) : k ∈ d.map Prod.fst := by
  induction d with
  | nil => cases h
  | cons kv rest ih =>
    rcases kv with ⟨k', v'⟩
    rw [alookup] at h
    by_cases he : k' = k
    · rw [List.map_cons]
      exact he ▸ List.mem_cons_self _ _
    · rw [if_neg he] at h
      exact List.mem_cons_of_mem _ (ih h)

theorem mem_keys_of_alookupD_ne {d : List (String × String)} {k : String}
    (h : alookupD d k ≠ "") : k ∈ d.map Prod.fst := by
  unfold alookupD at h
  cases ha : alookup k d with
  | none => rw [ha] at h; exact absurd rfl h
  | some v => exact alookup_some_mem ha

theorem pageDesc_inj {p q : String}
    (h : "Conteúdo da página '" ++ p ++ "' alterado" =
      "Conteúdo da página '" ++ q ++ "' alterado") : p = q := by
  apply String.ext
  have hd := congrArg String.data h
  simp only [String.data_append] at hd
  exact List.append_cancel_left (List.append_cancel_right hd)

theorem pageEmit_mem {o n : CompanySnapshot} {ts q : String} {c : Change}
    (hc : c ∈ pageEmit o n ts q) :
    c.description = "Conteúdo da página '" ++ q ++ "' alterado" ∧
      (alookupD o.raw_pages q ≠ "" ∧ alookupD n.raw_pages q ≠ "" ∧
        alookupD o.raw_pages q ≠ alookupD n.raw_pages q) := by
  simp only [pageEmit] at hc
  by_cases h : alookupD o.raw_pages q ≠ "" ∧ alookupD n.raw_pages q ≠ "" ∧
      alookupD o.raw_pages q ≠ alookupD n.raw_pages q
  · rw [if_pos h] at hc
    rcases List.mem_singleton.mp hc with rfl
    exact ⟨rfl, h⟩
  · rw [if_neg h] at hc
    cases hc

/-- C9: absence is never reported as a change in the hash-based categories.
A `business_model_change` is emitted iff both `about_text_hash` values are
non-empty and differ (in particular, zero records when either side — or
both — is empty), and a `website_content_change` for page `p` is emitted
iff `p`'s raw-page hash is non-empty on both sides and the two hashes
differ. -/
theorem C9_hash_absence_not_a_change (old new : CompanySnapshot) (ts : String) :
    (detect_business_changes old new ts ≠ [] ↔
      (alookupD old.business_info "about_text_hash" ≠ "" ∧
        alookupD new.business_info "about_text_hash" ≠ "" ∧
        alookupD old.business_info "about_text_hash" ≠
          alookupD new.business_info "about_text_hash")) ∧
    (∀ p : String,
      (∃ c ∈ detect_page_changes old new ts,
        c.description = "Conteúdo da página '" ++ p ++ "' alterado") ↔
      (alookupD old.raw_pages p ≠ "" ∧ alookupD new.raw_pages p ≠ "" ∧
        alookupD old.raw_pages p ≠ alookupD new.raw_pages p)) := by
  constructor
  · by_cases h : alookupD old.business_info "about_text_hash" ≠ "" ∧
        alookupD new.business_info "about_text_hash" ≠ "" ∧
        alookupD old.business_info "about_text_hash" ≠
          alookupD new.business_info "about_text_hash"
    · simp only [detect_business_changes, if_pos h]
      simpa using h
    · simp only [detect_business_changes, if_neg h]
      simpa using h
  · intro p
    rw [detect_page_changes_eq_flatMap]
    constructor
    · rintro ⟨c, hc, hdesc⟩
      rcases List.mem_flatMap.mp hc with ⟨q, _, hcq⟩
      rcases pageEmit_mem hcq with ⟨hd, hcond⟩
      rw [hd] at hdesc
      rw [pageDesc_inj hdesc] at hcond
      exact hcond
    · intro hcond
      have hp : p ∈ unionKeys old.raw_pages new.raw_pages := by
        unfold unionKeys
        rw [List.mem_dedup, List.mem_append]
        exact Or.inl (mem_keys_of_alookupD_ne hcond.1)
      refine ⟨{ company_id := new.company_id,
                change_type := "website_content_change",
                category := "business_model",
                description := "Conteúdo da página '" ++ p ++ "' alterado",
                old_value :=
                  some ("hash: " ++ (alookupD old.raw_pages p).take 16 ++ "..."),
                new_value :=
                  some ("hash: " ++ (alookupD new.raw_pages p).take 16 ++ "..."),
                timestamp := ts, severity := "info" },
        List.mem_flatMap.mpr ⟨p, hp, ?_⟩, rfl⟩
      simp only [pageEmit, if_pos hcond]
      exact List.mem_singleton.mpr rfl

/-! ### Scan coordinator (tracker/agent.py, `CompetitiveAgent.run_scan`)

`_scan_company` (network scraping, storage write, diff against the previous
snapshot) is abstracted as a function argument that either returns the
entity's `(changes, snapshot)` pair or raises — any exception escaping the
per-entity pipeline, including a storage write failure, is a
`Except.error`.  The report rendering after the loop only formats and
prints the returned mapping. -/

/-- Python dict lookup. -/
def dlookup {α : Type} (k : String) : List (String × α) → Option α
  | [] => none
  | (k', v) :: rest => if k' = k then some v else dlookup k rest

/-- Python dict assignment `d[k] = v`: overwrites the existing binding or
appends a new one (insertion order preserved). -/
def dictInsert {α : Type} : List (String × α) → String → α → List (String × α)
  | [], k, v => [(k, v)]
  | kv :: rest, k, v =>
    if kv.1 = k then (k, v) :: rest else kv :: dictInsert rest k v

/-- The body of the `for company_id in company_ids` loop of `run_scan`:
`try: changes, _ = self._scan_company(company_id); all_changes[company_id] =
changes except Exception: all_changes[company_id] = []`. -/
def scanStep {ε : Type}
    (scan : String → Except ε (List Change × Option CompanySnapshot))
    (all_changes : List (String × List Change)) (company_id : String) :
    List (String × List Change) :=
  match scan company_id with
  | Except.ok (changes, _) => dictInsert all_changes company_id changes
  | Except.error _ => dictInsert all_changes company_id []

/-- `CompetitiveAgent.run_scan` restricted to the changes mapping it builds
and returns. -/
def run_scan {ε : Type}
    (scan : String → Except ε (List Change × Option CompanySnapshot))
    (company_ids : List String) : List (String × List Change) :=
  company_ids.foldl (scanStep scan) []

theorem dlookup_dictInsert_self {α : Type} (d : List (String × α)) (k : String)
    (v : α) : dlookup k (dictInsert d k v) = some v := by
  induction d with
  | nil => simp [dictInsert, dlookup]
  | cons kv rest ih =>
    by_cases h : kv.1 = k
    · simp [dictInsert, dlookup, h]
    · simp [dictInsert, dlookup, h, ih]

theorem dlookup_dictInsert_ne {α : Type} (d : List (String × α)) {k k' : String}
    (v : α) (h : k' ≠ k) : dlookup k' (dictInsert d k v) = dlookup k' d := by
  induction d with
  | nil => simp [dictInsert, dlookup, Ne.symm h]
  | cons kv rest ih =>
    rcases kv with ⟨k0, v0⟩
    by_cases hk : k0 = k
    · subst hk
      simp [dictInsert, dlookup, Ne.symm h]
    · by_cases hk0 : k0 = k'
      · subst hk0
        simp [dictInsert, dlookup, hk]
      · simp [dictInsert, dlookup, hk, hk0, ih]

theorem run_scan_foldl_lookup {ε : Type}
    (scan : String → Except ε (List Change × Option CompanySnapshot))
    (ids : List String) :
    ∀ (acc : List (String × List Change)) (cid : String),
      dlookup cid (ids.foldl (scanStep scan) acc) =
        if cid ∈ ids then
          some (match scan cid with
                | Except.ok (changes, _) => changes
                | Except.error _ => [])
        else dlookup cid acc := by
  induction ids with
  | nil => intro acc cid; simp
  | cons i rest ih =>
    intro acc cid
    rw [List.foldl_cons, ih]
    by_cases hr : cid ∈ rest
    · rw [if_pos hr, if_pos (List.mem_cons_of_mem i hr)]
    · rw [if_neg hr]
      by_cases hi : cid = i
      · subst hi
        rw [if_pos (List.mem_cons_self cid rest)]
        unfold scanStep
        rcases e : scan cid with err | pr
        · rw [dlookup_dictInsert_self]
        · rcases pr with ⟨cs, snap⟩
          rw [dlookup_dictInsert_self]
      · rw [if_neg (by simp [hi, hr])]
        unfold scanStep
        rcases e : scan i with err | pr
        · rw [dlookup_dictInsert_ne _ _ hi]
        · rcases pr with ⟨cs, snap⟩
          rw [dlookup_dictInsert_ne _ _ hi]

/-- C10: in `run_scan` over a batch, each entity's outcome is decided only
by its own pipeline: for every entity in the batch, the returned changes
mapping binds it — an entity whose pipeline raised (e.g. a storage write
failure while persisting its snapshot) is recorded as zero changes rather
than dropped, and every other entity is still bound to the changes its own
pipeline produced. -/
theorem C10_per_entity_isolation {ε : Type}
    (scan : String → Except ε (List Change × Option CompanySnapshot))
    (ids : List String) (cid : String) (h : cid ∈ ids) :
    dlookup cid (run_scan scan ids) =
      some (match scan cid with
            | Except.ok (changes, _) => changes
            | Except.error _ => []) := by
  unfold run_scan
  rw [run_scan_foldl_lookup scan ids [] cid, if_pos h]

theorem C10_per_entity_isolation_witness :
    dlookup "fixo"
        (run_scan (fun company_id =>
          if company_id = "fixo" then Except.error "disco cheio"
          else Except.ok
            ([{ company_id := company_id, change_type := "service_added",
                category := "services", description := "Novo serviço detetado: x",
                old_value := none, new_value := some "x", timestamp := "now",
                severity := "high" }], none)) ["fixo", "webel"]) = some [] ∧
    dlookup "webel"
        (run_scan (fun company_id =>
          if company_id = "fixo" then Except.error "disco cheio"
          else Except.ok
            ([{ company_id := company_id, change_type := "service_added",
                category := "services", description := "Novo serviço detetado: x",
                old_value := none, new_value := some "x", timestamp := "now",
                severity := "high" }], none)) ["fixo", "webel"]) =
      some [{ company_id := "webel", change_type := "service_added",
              category := "services", description := "Novo serviço detetado: x",
              old_value := none, new_value := some "x", timestamp := "now",
              severity := "high" }] :=
  ⟨(C10_per_entity_isolation (fun company_id =>
      if company_id = "fixo" then Except.error "disco cheio"
      else Except.ok
        ([{ company_id := company_id, change_type := "service_added",
            category := "services", description := "Novo serviço detetado: x",
            old_value := none, new_value := some "x", timestamp := "now",
            severity := "high" }], none)) ["fixo", "webel"] "fixo"
      (by decide)).trans (by decide),
   (C10_per_entity_isolation (fun company_id =>
      if company_id = "fixo" then Except.error "disco cheio"
      else Except.ok
        ([{ company_id := company_id, change_type := "service_added",
            category := "services", description := "Novo serviço detetado: x",
            old_value := none, new_value := some "x", timestamp := "now",
            severity := "high" }], none)) ["fixo", "webel"] "webel"
      (by decide)).trans (by decide)⟩
